import Mathlib

/-!
Verification of the triplet seed finder of the Acts repository
(src/Core/include/Acts/Seeding/Seedfinder.ipp) against its specification.

The numeric computations of the source are embedded over the exact reals.
Each definition mirrors one function or loop of Seedfinder.ipp; the few
pieces of the repository the source file calls but that are not part of
the provided sources (the InternalSpacePoint constructor and the grid
cell lookup) are modelled from the specification and marked as such in
their doc comments.
-/

noncomputable section

open Classical

/-- Model of std::atan2: atan2 y x is the argument of the complex number x + i y.
    Used by initState for the phi region-of-interest check. -/
def atan2 (y x : ℝ) : ℝ := Complex.arg ⟨x, y⟩

/-- An external spacepoint: the caller-owned measurement, consumed through its
    x, y, z accessors (Seedfinder.ipp lines 87-90). -/
structure ExtSpacePoint where
  x : ℝ
  y : ℝ
  z : ℝ

/-- The seedfinder configuration surface used by Seedfinder.ipp, including the
    derived quantities that the constructor fills in. -/
structure SeedfinderConfig where
  minPt : ℝ
  cotThetaMax : ℝ
  deltaRMin : ℝ
  deltaRMax : ℝ
  impactMax : ℝ
  sigmaScattering : ℝ
  collisionRegionMin : ℝ
  collisionRegionMax : ℝ
  phiMin : ℝ
  phiMax : ℝ
  zMin : ℝ
  zMax : ℝ
  rMax : ℝ
  bFieldInZ : ℝ
  beamPosX : ℝ
  beamPosY : ℝ
  radLengthPerSeed : ℝ
  zAlign : ℝ
  rAlign : ℝ
  sigmaError : ℝ
  highland : ℝ
  maxScatteringAngle2 : ℝ
  pTPerHelixRadius : ℝ
  minHelixDiameter2 : ℝ
  pT2perRadius : ℝ

/-- Derived-configuration computation of the Seedfinder constructor
    (Seedfinder.ipp lines 18-36): highland term, squared maximum scattering
    angle, pT per helix radius, minimum helix diameter squared and
    pT^2 per radius.  The constructor body performs exactly these five
    assignments and nothing else. -/
def constructDerived (cfg : SeedfinderConfig) : SeedfinderConfig :=
  let highland : ℝ :=
    13.6 * Real.sqrt cfg.radLengthPerSeed * (1 + 0.038 * Real.log cfg.radLengthPerSeed)
  let maxScatteringAngle : ℝ := highland / cfg.minPt
  { cfg with
    highland := highland
    maxScatteringAngle2 := maxScatteringAngle * maxScatteringAngle
    pTPerHelixRadius := 300 * cfg.bFieldInZ
    minHelixDiameter2 := (cfg.minPt * 2 / (300 * cfg.bFieldInZ)) ^ 2
    pT2perRadius := (highland / (300 * cfg.bFieldInZ)) ^ 2 }

/-- The Seedfinder constructor, with an explicit error channel so that the
    possibility of signalling a configuration error at construction time is
    statable.  The C++ constructor (Seedfinder.ipp lines 18-36) has no failure
    path at all: it unconditionally computes the derived quantities, so the
    embedding returns ok on every input. -/
def construct (cfg : SeedfinderConfig) : Except Unit SeedfinderConfig :=
  Except.ok (constructDerived cfg)

/-- An internal spacepoint as stored in the bins of the grid.
    Modelled from the spec: the InternalSpacePoint class is not among the
    provided sources; per the specification its attributes are the position
    translated by the configured beam position, the radius and phi of the
    translated position, and the two covariance contributions. -/
structure InternalSP where
  x : ℝ
  y : ℝ
  z : ℝ
  radius : ℝ
  phi : ℝ
  covr : ℝ
  covz : ℝ

/-- Modelled from the spec: construction of an InternalSpacePoint (the class is
    not among the provided sources).  Position translated by the beam position,
    radius and phi recomputed from the translated position, covariance
    contributions taken from the covariance tool output. -/
def mkISP (cfg : SeedfinderConfig) (cov : ℝ × ℝ) (sp : ExtSpacePoint) : InternalSP :=
  let xb := sp.x - cfg.beamPosX
  let yb := sp.y - cfg.beamPosY
  { x := xb
    y := yb
    z := sp.z
    radius := Real.sqrt (xb ^ 2 + yb ^ 2)
    phi := atan2 yb xb
    covr := cov.1
    covz := cov.2 }

/-- Model of beamPos.norm() (Eigen 2D vector norm). -/
def beamNorm (cfg : SeedfinderConfig) : ℝ :=
  Real.sqrt (cfg.beamPosX ^ 2 + cfg.beamPosY ^ 2)

/-- Number of radius buckets used while building the index
    (Seedfinder.ipp line 79): the float rMax + beamPos.norm() truncated to an
    unsigned integer. -/
def numRBins (cfg : SeedfinderConfig) : ℕ :=
  Nat.floor (cfg.rMax + beamNorm cfg)

/-- One iteration of the spacepoint loop of initState
    (Seedfinder.ipp lines 83-115): skip null pointers, skip spacepoints outside
    the z and phi regions of interest, build the internal spacepoint, skip it
    if its radius bucket index overflows the bucket array, otherwise append it
    to its radius bucket. -/
def initStep (cfg : SeedfinderConfig) (covTool : ExtSpacePoint → ℝ → ℝ → ℝ → ℝ × ℝ)
    (nR : ℕ) (acc : List (List InternalSP)) (osp : Option ExtSpacePoint) :
    List (List InternalSP) :=
  match osp with
  | none => acc
  | some sp =>
    if sp.z > cfg.zMax ∨ sp.z < cfg.zMin then acc
    else if atan2 sp.y sp.x > cfg.phiMax ∨ atan2 sp.y sp.x < cfg.phiMin then acc
    else
      let isp := mkISP cfg (covTool sp cfg.zAlign cfg.rAlign cfg.sigmaError) sp
      let rIndex := Nat.floor isp.radius
      if nR ≤ rIndex then acc
      else acc.set rIndex (acc.getD rIndex [] ++ [isp])

/-- The radius-bucketing phase of initState (Seedfinder.ipp lines 79-115):
    fold the spacepoint range into numRBins per-millimetre radius buckets. -/
def buildRBins (cfg : SeedfinderConfig) (covTool : ExtSpacePoint → ℝ → ℝ → ℝ → ℝ × ℝ)
    (sps : List (Option ExtSpacePoint)) : List (List InternalSP) :=
  sps.foldl (initStep cfg covTool (numRBins cfg)) (List.replicate (numRBins cfg) [])

/-- One step of the flush phase (Seedfinder.ipp lines 118-126): append an
    internal spacepoint to the grid bin that the grid lookup assigns to its
    (phi, z) location.  The grid cell lookup itself (atPosition of the
    SpacePointGrid, whose sources are not provided) is modelled from the spec
    as an abstract total placement function from (phi, z) to a bin index. -/
def flushStep (pos : ℝ → ℝ → ℕ) (grid : List (List InternalSP)) (isp : InternalSP) :
    List (List InternalSP) :=
  grid.set (pos isp.phi isp.z) (grid.getD (pos isp.phi isp.z) [] ++ [isp])

/-- The flush phase of initState (Seedfinder.ipp lines 118-126): walk the
    radius buckets in increasing bucket order and append each internal
    spacepoint to its grid bin. -/
def flushAll (pos : ℝ → ℝ → ℕ) (grid : List (List InternalSP))
    (rBins : List (List InternalSP)) : List (List InternalSP) :=
  rBins.foldl (fun g rbin => rbin.foldl (flushStep pos) g) grid

/-- The index-building portion of initState (Seedfinder.ipp lines 79-126):
    bucket the spacepoints by integer radius, then flush the buckets in
    increasing radius order into the (phi, z) grid, which starts with nbins
    empty bins. -/
def initState (cfg : SeedfinderConfig) (covTool : ExtSpacePoint → ℝ → ℝ → ℝ → ℝ × ℝ)
    (pos : ℝ → ℝ → ℕ) (nbins : ℕ) (sps : List (Option ExtSpacePoint)) :
    List (List InternalSP) :=
  flushAll pos (List.replicate nbins []) (buildRBins cfg covTool sps)

/-- The bottom-doublet loop of createSeedsForRegion
    (Seedfinder.ipp lines 159-182) over one candidate bin: too-large deltaR
    continues, too-small deltaR breaks (bins are radius sorted), then the
    cotTheta and collision-region cuts continue, and surviving candidates are
    collected in order. -/
def bottomDoublets (cfg : SeedfinderConfig) (rM zM : ℝ) : List InternalSP → List InternalSP
  | [] => []
  | spB :: rest =>
    let deltaR := rM - spB.radius
    if deltaR > cfg.deltaRMax then bottomDoublets cfg rM zM rest
    else if deltaR < cfg.deltaRMin then []
    else
      let cotTheta := (zM - spB.z) / deltaR
      if |cotTheta| > cfg.cotThetaMax then bottomDoublets cfg rM zM rest
      else
        let zOrigin := zM - rM * cotTheta
        if zOrigin < cfg.collisionRegionMin ∨ zOrigin > cfg.collisionRegionMax then
          bottomDoublets cfg rM zM rest
        else spB :: bottomDoublets cfg rM zM rest

/-- The top-doublet loop of createSeedsForRegion (Seedfinder.ipp lines
    193-214) over one candidate bin: mirrored deltaR cuts (too small continues,
    too large breaks), then the same cotTheta and collision-region cuts. -/
def topDoublets (cfg : SeedfinderConfig) (rM zM : ℝ) : List InternalSP → List InternalSP
  | [] => []
  | spT :: rest =>
    let deltaR := spT.radius - rM
    if deltaR < cfg.deltaRMin then topDoublets cfg rM zM rest
    else if deltaR > cfg.deltaRMax then []
    else
      let cotTheta := (spT.z - zM) / deltaR
      if |cotTheta| > cfg.cotThetaMax then topDoublets cfg rM zM rest
      else
        let zOrigin := zM - rM * cotTheta
        if zOrigin < cfg.collisionRegionMin ∨ zOrigin > cfg.collisionRegionMax then
          topDoublets cfg rM zM rest
        else spT :: topDoublets cfg rM zM rest

/-- The conditions under which the bottom-doublet loop keeps a candidate:
    radial separation within [deltaRMin, deltaRMax], forward angle within
    cotThetaMax, extrapolated z origin inside the collision region. -/
def bottomKeep (cfg : SeedfinderConfig) (rM zM : ℝ) (spB : InternalSP) : Prop :=
  cfg.deltaRMin ≤ rM - spB.radius ∧ rM - spB.radius ≤ cfg.deltaRMax ∧
  |(zM - spB.z) / (rM - spB.radius)| ≤ cfg.cotThetaMax ∧
  cfg.collisionRegionMin ≤ zM - rM * ((zM - spB.z) / (rM - spB.radius)) ∧
  zM - rM * ((zM - spB.z) / (rM - spB.radius)) ≤ cfg.collisionRegionMax

/-- The conditions under which the top-doublet loop keeps a candidate:
    mirrored radial separation, same forward-angle and z-origin cuts. -/
def topKeep (cfg : SeedfinderConfig) (rM zM : ℝ) (spT : InternalSP) : Prop :=
  cfg.deltaRMin ≤ spT.radius - rM ∧ spT.radius - rM ≤ cfg.deltaRMax ∧
  |(spT.z - zM) / (spT.radius - rM)| ≤ cfg.cotThetaMax ∧
  cfg.collisionRegionMin ≤ zM - rM * ((spT.z - zM) / (spT.radius - rM)) ∧
  zM - rM * ((spT.z - zM) / (spT.radius - rM)) ≤ cfg.collisionRegionMax

/-- The conformal record attached to a (middle, partner) pair
    (SeedfinderUtilityClasses LinCircle, as filled by transformCoordinates). -/
structure LinCircle where
  Zo : ℝ
  cotTheta : ℝ
  iDeltaR : ℝ
  Er : ℝ
  U : ℝ
  V : ℝ

/-- transformCoordinates (Seedfinder.ipp lines 365-417): for each partner
    spacepoint, project the displacement onto the radial direction of the
    middle spacepoint, form the conformal U, V coordinates, the signed
    cotTheta, the z origin and the propagated squared error; one record per
    partner, in input order. -/
def transformCoordinates (spM : InternalSP) (bottom : Bool) (vec : List InternalSP) :
    List LinCircle :=
  let xM := spM.x
  let yM := spM.y
  let zM := spM.z
  let rM := spM.radius
  let covzM := spM.covz
  let covrM := spM.covr
  let cosPhiM := xM / rM
  let sinPhiM := yM / rM
  vec.map fun sp =>
    let deltaX := sp.x - xM
    let deltaY := sp.y - yM
    let deltaZ := sp.z - zM
    let x := deltaX * cosPhiM + deltaY * sinPhiM
    let y := deltaY * cosPhiM - deltaX * sinPhiM
    let iDeltaR2 := 1 / (deltaX * deltaX + deltaY * deltaY)
    let iDeltaR := Real.sqrt iDeltaR2
    let bottomFactor : ℝ := 1 * (if bottom then 0 else 1) - 1 * (if bottom then 1 else 0)
    let cot_theta := deltaZ * iDeltaR * bottomFactor
    { cotTheta := cot_theta
      Zo := zM - rM * cot_theta
      iDeltaR := iDeltaR
      U := x * iDeltaR2
      V := y * iDeltaR2
      Er := ((covzM + sp.covz) + (cot_theta * cot_theta) * (covrM + sp.covr)) * iDeltaR2 }

/-- The conformal record as the specification words it: cos and sin of the
    middle phi from xM/rM and yM/rM, displacement components along and
    orthogonal to the radial direction, squared reciprocal transverse
    distance, sign +1 for a top partner and -1 for a bottom partner,
    cotTheta, Zo, U, V and Er by the spec formulas. -/
def specLinCircle (spM : InternalSP) (bottom : Bool) (sp : InternalSP) : LinCircle :=
  let cosPhiM := spM.x / spM.radius
  let sinPhiM := spM.y / spM.radius
  let deltaX := sp.x - spM.x
  let deltaY := sp.y - spM.y
  let deltaZ := sp.z - spM.z
  let xP := deltaX * cosPhiM + deltaY * sinPhiM
  let yP := deltaY * cosPhiM - deltaX * sinPhiM
  let iDeltaR2 := 1 / (deltaX ^ 2 + deltaY ^ 2)
  let sign : ℝ := if bottom then -1 else 1
  let cotTheta := deltaZ * Real.sqrt iDeltaR2 * sign
  { cotTheta := cotTheta
    Zo := spM.z - spM.radius * cotTheta
    iDeltaR := Real.sqrt iDeltaR2
    U := xP * iDeltaR2
    V := yP * iDeltaR2
    Er := ((spM.covz + sp.covz) + cotTheta ^ 2 * (spM.covr + sp.covr)) * iDeltaR2 }

/-- Squared error sum of a (bottom, top) conformal pair
    (Seedfinder.ipp lines 273-275). -/
def error2Of (covrM covzM : ℝ) (lb lt : LinCircle) : ℝ :=
  lt.Er + lb.Er + 2 * (lb.cotTheta * lt.cotTheta * covrM + covzM) * lb.iDeltaR * lt.iDeltaR

/-- Difference of the two cotTheta values (Seedfinder.ipp line 277). -/
def deltaCotThetaOf (lb lt : LinCircle) : ℝ :=
  lb.cotTheta - lt.cotTheta

/-- The quantity dCotThetaMinusError2 of the scattering comparison
    (Seedfinder.ipp lines 286-288): squared difference of cotTheta values plus
    the squared error minus twice their product through the square root. -/
def dOf (covrM covzM : ℝ) (lb lt : LinCircle) : ℝ :=
  deltaCotThetaOf lb lt ^ 2 + error2Of covrM covzM lb lt -
    2 * |deltaCotThetaOf lb lt| * Real.sqrt (error2Of covrM covzM lb lt)

/-- 1 + cotTheta^2 of the bottom conformal record = 1/sin^2 theta
    (Seedfinder.ipp line 249). -/
def iSinTheta2Of (lb : LinCircle) : ℝ :=
  1 + lb.cotTheta * lb.cotTheta

/-- The scattering bound for minimum momentum at the seed angle, scaled by the
    squared sigma multiplier (Seedfinder.ipp lines 259-262). -/
def scatteringInRegion2Of (cfg : SeedfinderConfig) (lb : LinCircle) : ℝ :=
  cfg.maxScatteringAngle2 * iSinTheta2Of lb * (cfg.sigmaScattering * cfg.sigmaScattering)

/-- The U separation of a (bottom, top) conformal pair (Seedfinder.ipp line 300). -/
def dUOf (lb lt : LinCircle) : ℝ :=
  lt.U - lb.U

/-- Slope A of the linearised circle equation (Seedfinder.ipp line 306). -/
def aOf (lb lt : LinCircle) : ℝ :=
  (lt.V - lb.V) / dUOf lb lt

/-- S2 = 1 + A^2 (Seedfinder.ipp line 307). -/
def s2Of (lb lt : LinCircle) : ℝ :=
  1 + aOf lb lt * aOf lb lt

/-- Intercept B of the linearised circle equation (Seedfinder.ipp line 308). -/
def bOf (lb lt : LinCircle) : ℝ :=
  lb.V - aOf lb lt * lb.U

/-- Transverse impact parameter of a triplet candidate (Seedfinder.ipp line 332). -/
def imOf (rM : ℝ) (lb lt : LinCircle) : ℝ :=
  |(aOf lb lt - bOf lb lt * rM) * rM|

/-- Squared scattering bound at the transverse momentum measured from the seed
    curvature, converted to momentum (Seedfinder.ipp lines 316-322):
    p2scatter = 4 * (B^2/S^2) * pT2perRadius * (1 + cotThetaB^2). -/
def p2scatterOf (cfg : SeedfinderConfig) (lb lt : LinCircle) : ℝ :=
  4 * (bOf lb lt * bOf lb lt / s2Of lb lt) * cfg.pT2perRadius * iSinTheta2Of lb

/-- The body of the triplet inner loop of createSeedsForRegion
    (Seedfinder.ipp lines 268-340) for one (bottom, top) conformal pair:
    the scattering-in-region cut, the dU = 0 guard, the helix-radius floor,
    the measured-pT scattering cut and the impact-parameter cut; a surviving
    pair is recorded with its signed curvature and impact parameter. -/
def tripletCheck (cfg : SeedfinderConfig) (rM covrM covzM : ℝ) (lb lt : LinCircle) :
    Option (ℝ × ℝ) :=
  let error2 := error2Of covrM covzM lb lt
  let deltaCotTheta2 := deltaCotThetaOf lb lt ^ 2
  if deltaCotTheta2 - error2 > 0 ∧ dOf covrM covzM lb lt > scatteringInRegion2Of cfg lb then
    none
  else if dUOf lb lt = 0 then none
  else
    let S2 := s2Of lb lt
    let B := bOf lb lt
    if S2 < B * B * cfg.minHelixDiameter2 then none
    else if deltaCotTheta2 - error2 > 0 ∧
        dOf covrM covzM lb lt >
          p2scatterOf cfg lb lt * (cfg.sigmaScattering * cfg.sigmaScattering) then none
    else
      let Im := imOf rM lb lt
      if Im ≤ cfg.impactMax then some (B / Real.sqrt S2, Im) else none

/-- The t loop of the triplet builder for one fixed bottom conformal record
    (Seedfinder.ipp lines 268-341): each top candidate paired with its
    conformal record, surviving candidates collected with curvature and impact
    parameter in order. -/
def seedCandidates (cfg : SeedfinderConfig) (rM covrM covzM : ℝ)
    (tops : List InternalSP) (linTop : List LinCircle) (lb : LinCircle) :
    List (InternalSP × ℝ × ℝ) :=
  (tops.zip linTop).filterMap fun p =>
    (tripletCheck cfg rM covrM covzM lb p.2).map fun ci => (p.1, ci.1, ci.2)

/-- createSeedsForRegion (Seedfinder.ipp lines 137-363) for one region cell:
    for each middle spacepoint of the cell, collect the compatible bottom and
    top partners from the candidate bins, transform them into conformal
    coordinates, run the triplet loop per bottom, hand each nonempty top set to
    the per-middle-fixed-bottom seed filter, and finally hand the merged
    candidates to the per-middle filter, which appends into the output slot.
    The two seed-filter stages are caller-supplied strategies and are taken as
    function parameters. -/
def createSeedsForRegion {σ : Type} (cfg : SeedfinderConfig)
    (filter2SpFixed : InternalSP → InternalSP → List (InternalSP × ℝ × ℝ) → ℝ → List (ℝ × σ))
    (filter1SpFixed : List (ℝ × σ) → List σ → List σ)
    (middleBin : List InternalSP) (bottomBins topBins : List (List InternalSP))
    (output : List σ) : List σ :=
  middleBin.foldl
    (fun out spM =>
      let rM := spM.radius
      let zM := spM.z
      let covrM := spM.covr
      let covzM := spM.covz
      let compatBottomSP := bottomBins.foldl (fun acc bin => acc ++ bottomDoublets cfg rM zM bin) []
      if compatBottomSP.isEmpty then out
      else
        let compatTopSP := topBins.foldl (fun acc bin => acc ++ topDoublets cfg rM zM bin) []
        if compatTopSP.isEmpty then out
        else
          let linCircleBottom := transformCoordinates spM true compatBottomSP
          let linCircleTop := transformCoordinates spM false compatTopSP
          let seedsPerSpM :=
            (compatBottomSP.zip linCircleBottom).foldl
              (fun acc p =>
                let cands := seedCandidates cfg rM covrM covzM compatTopSP linCircleTop p.2
                if cands.isEmpty then acc
                else acc ++ filter2SpFixed p.1 spM cands p.2.Zo)
              []
          filter1SpFixed seedsPerSpM out)
    output

/-- Concrete inconsistent configuration: deltaRMin above deltaRMax, minPt not
    positive, empty phi range, empty z range. -/
def badCfg : SeedfinderConfig :=
  { minPt := 0, cotThetaMax := 7, deltaRMin := 10, deltaRMax := 5, impactMax := 10
    sigmaScattering := 5, collisionRegionMin := -150, collisionRegionMax := 150
    phiMin := 1, phiMax := 0, zMin := 1, zMax := 0, rMax := 160, bFieldInZ := 1
    beamPosX := 0, beamPosY := 0, radLengthPerSeed := 1, zAlign := 0, rAlign := 0
    sigmaError := 0, highland := 0, maxScatteringAngle2 := 0, pTPerHelixRadius := 0
    minHelixDiameter2 := 0, pT2perRadius := 0 }

/-- C7 counterexample: a configuration that is inconsistent in all four listed
    ways is nevertheless accepted by the constructor, which returns a usable
    Seedfinder, so no fatal configuration error is signalled at construction
    time. -/
theorem c7_construction_counterexample :
    (badCfg.deltaRMax < badCfg.deltaRMin ∧ badCfg.minPt ≤ 0 ∧
      badCfg.phiMax < badCfg.phiMin ∧ badCfg.zMax < badCfg.zMin) ∧
    ∃ out, construct badCfg = Except.ok out := by
  refine ⟨⟨?_, ?_, ?_, ?_⟩, ⟨constructDerived badCfg, rfl⟩⟩ <;> norm_num [badCfg]

/-- C7 amended: the constructor performs no validation at all.  Every
    configuration, consistent or not, yields a Seedfinder whose derived
    quantities are computed by the constructor formulas and whose cut
    parameters are passed through unchanged; no error is ever signalled. -/
theorem c7_no_construction_validation (cfg : SeedfinderConfig) :
    construct cfg = Except.ok (constructDerived cfg) ∧
    (constructDerived cfg).pTPerHelixRadius = 300 * cfg.bFieldInZ ∧
    (constructDerived cfg).minHelixDiameter2 = (cfg.minPt * 2 / (300 * cfg.bFieldInZ)) ^ 2 ∧
    (constructDerived cfg).deltaRMin = cfg.deltaRMin ∧
    (constructDerived cfg).deltaRMax = cfg.deltaRMax ∧
    (constructDerived cfg).minPt = cfg.minPt := by
  refine ⟨rfl, ?_, ?_, ?_, ?_, ?_⟩ <;> simp [constructDerived]

/-- C10: a null spacepoint pointer anywhere in the input range of initState is
    silently skipped: removing it from the range leaves the resulting binned
    index unchanged, so it produces no internal spacepoint, lands in no bin,
    and does not disturb the placement of the other spacepoints. -/
theorem c10_null_skipped (cfg : SeedfinderConfig)
    (covTool : ExtSpacePoint → ℝ → ℝ → ℝ → ℝ × ℝ) (pos : ℝ → ℝ → ℕ) (nbins : ℕ)
    (xs ys : List (Option ExtSpacePoint)) :
    initState cfg covTool pos nbins (xs ++ none :: ys) =
      initState cfg covTool pos nbins (xs ++ ys) := by
  simp only [initState, buildRBins, List.foldl_append, List.foldl_cons]
  rfl

/-- C9: the region kernel is a pure function of its configuration, seed filter
    stages, middle bin, candidate bins and output slot; two runs on equal
    inputs append equal seeds in equal order, so re-running the finder on the
    same input with the same configuration yields identical output. -/
theorem c9_deterministic {σ : Type} (cfg cfg' : SeedfinderConfig)
    (f2 f2' : InternalSP → InternalSP → List (InternalSP × ℝ × ℝ) → ℝ → List (ℝ × σ))
    (f1 f1' : List (ℝ × σ) → List σ → List σ)
    (mb mb' : List InternalSP) (bb bb' tb tb' : List (List InternalSP))
    (out out' : List σ)
    (hcfg : cfg = cfg') (hf2 : f2 = f2') (hf1 : f1 = f1') (hmb : mb = mb')
    (hbb : bb = bb') (htb : tb = tb') (hout : out = out') :
    createSeedsForRegion cfg f2 f1 mb bb tb out =
      createSeedsForRegion cfg' f2' f1' mb' bb' tb' out' := by
  subst hcfg hf2 hf1 hmb hbb htb hout
  rfl

/-- Witness for C9 at a concrete instance. -/
theorem c9_deterministic_witness :
    createSeedsForRegion (σ := Unit) badCfg (fun _ _ _ _ => []) (fun _ o => o) [] [] [] [] =
      createSeedsForRegion (σ := Unit) badCfg (fun _ _ _ _ => []) (fun _ o => o) [] [] [] [] :=
  c9_deterministic badCfg badCfg _ _ _ _ [] [] [] [] [] [] [] []
    rfl rfl rfl rfl rfl rfl rfl

/-- C8: a degenerate conformal pair, with vanishing U separation, is rejected
    by the triplet predicate before the slope A is ever formed, producing no
    seed and no failure. -/
theorem c8_dU_zero_guard (cfg : SeedfinderConfig) (rM covrM covzM : ℝ)
    (lb lt : LinCircle) (h : dUOf lb lt = 0) :
    tripletCheck cfg rM covrM covzM lb lt = none := by
  simp only [tripletCheck]
  split_ifs with h1 h2 h3 h4 h5 <;> first | rfl | exact absurd h h2

/-- C4: for a middle spacepoint of positive radius, transformCoordinates
    returns exactly the conformal records the specification prescribes, one
    per partner, in input order: cotTheta with sign +1 for top and -1 for
    bottom partners, Zo, U, V and Er by the spec formulas. -/
theorem c4_transform_conformal (spM : InternalSP) (bottom : Bool)
    (vec : List InternalSP) (h : 0 < spM.radius) :
    transformCoordinates spM bottom vec = vec.map (specLinCircle spM bottom) := by
  simp only [transformCoordinates]
  apply List.map_congr_left
  intro sp _
  have hd2 : (sp.x - spM.x) * (sp.x - spM.x) + (sp.y - spM.y) * (sp.y - spM.y)
      = (sp.x - spM.x) ^ 2 + (sp.y - spM.y) ^ 2 := by ring
  cases bottom <;>
    simp only [specLinCircle, LinCircle.mk.injEq, Bool.false_eq_true, if_false, if_true,
      ite_true, ite_false, hd2] <;>
    and_intros <;> ring

/-- In a radius-sorted bin, the bottom-doublet loop keeps exactly the members
    passing the deltaR, cotTheta and collision-region cuts: the early break is
    safe because later members have even larger radius. -/
theorem mem_bottomDoublets (cfg : SeedfinderConfig) (rM zM : ℝ) (bin : List InternalSP)
    (hsort : bin.Sorted fun a b => a.radius ≤ b.radius) (b : InternalSP) :
    b ∈ bottomDoublets cfg rM zM bin ↔ b ∈ bin ∧ bottomKeep cfg rM zM b := by
  induction bin with
  | nil => simp [bottomDoublets]
  | cons hd rest ih =>
    rw [List.sorted_cons] at hsort
    have ihh := ih hsort.2
    simp only [bottomDoublets]
    split_ifs with h1 h2 h3 h4
    · rw [ihh, List.mem_cons]
      constructor
      · rintro ⟨hb, hk⟩; exact ⟨Or.inr hb, hk⟩
      · rintro ⟨rfl | hb, hk⟩
        · exact absurd hk.2.1 (not_le.mpr h1)
        · exact ⟨hb, hk⟩
    · simp only [List.not_mem_nil, false_iff, List.mem_cons, not_and]
      rintro (rfl | hb)
      · intro hk; exact absurd hk.1 (not_le.mpr h2)
      · intro hk
        have hle := hsort.1 b hb
        have : rM - b.radius < cfg.deltaRMin := by linarith
        exact absurd hk.1 (not_le.mpr this)
    · rw [ihh, List.mem_cons]
      constructor
      · rintro ⟨hb, hk⟩; exact ⟨Or.inr hb, hk⟩
      · rintro ⟨rfl | hb, hk⟩
        · exact absurd hk.2.2.1 (not_le.mpr h3)
        · exact ⟨hb, hk⟩
    · rw [ihh, List.mem_cons]
      constructor
      · rintro ⟨hb, hk⟩; exact ⟨Or.inr hb, hk⟩
      · rintro ⟨rfl | hb, hk⟩
        · rcases h4 with h4 | h4
          · exact absurd hk.2.2.2.1 (not_le.mpr h4)
          · exact absurd hk.2.2.2.2 (not_le.mpr h4)
        · exact ⟨hb, hk⟩
    · rw [List.mem_cons, ihh, List.mem_cons]
      push_neg at h4
      constructor
      · rintro (rfl | ⟨hb, hk⟩)
        · exact ⟨Or.inl rfl, le_of_not_lt h2, le_of_not_lt h1, le_of_not_lt h3,
            h4.1, h4.2⟩
        · exact ⟨Or.inr hb, hk⟩
      · rintro ⟨rfl | hb, hk⟩
        · exact Or.inl rfl
        · exact Or.inr ⟨hb, hk⟩

/-- In a radius-sorted bin, the top-doublet loop keeps exactly the members
    passing the mirrored deltaR cut and the same cotTheta and
    collision-region cuts. -/
theorem mem_topDoublets (cfg : SeedfinderConfig) (rM zM : ℝ) (bin : List InternalSP)
    (hsort : bin.Sorted fun a b => a.radius ≤ b.radius) (t : InternalSP) :
    t ∈ topDoublets cfg rM zM bin ↔ t ∈ bin ∧ topKeep cfg rM zM t := by
  induction bin with
  | nil => simp [topDoublets]
  | cons hd rest ih =>
    rw [List.sorted_cons] at hsort
    have ihh := ih hsort.2
    simp only [topDoublets]
    split_ifs with h1 h2 h3 h4
    · rw [ihh, List.mem_cons]
      constructor
      · rintro ⟨hb, hk⟩; exact ⟨Or.inr hb, hk⟩
      · rintro ⟨rfl | hb, hk⟩
        · exact absurd hk.1 (not_le.mpr h1)
        · exact ⟨hb, hk⟩
    · simp only [List.not_mem_nil, false_iff, List.mem_cons, not_and]
      rintro (rfl | hb)
      · intro hk; exact absurd hk.2.1 (not_le.mpr h2)
      · intro hk
        have hle := hsort.1 t hb
        have : cfg.deltaRMax < t.radius - rM := by linarith
        exact absurd hk.2.1 (not_le.mpr this)
    · rw [ihh, List.mem_cons]
      constructor
      · rintro ⟨hb, hk⟩; exact ⟨Or.inr hb, hk⟩
      · rintro ⟨rfl | hb, hk⟩
        · exact absurd hk.2.2.1 (not_le.mpr h3)
        · exact ⟨hb, hk⟩
    · rw [ihh, List.mem_cons]
      constructor
      · rintro ⟨hb, hk⟩; exact ⟨Or.inr hb, hk⟩
      · rintro ⟨rfl | hb, hk⟩
        · rcases h4 with h4 | h4
          · exact absurd hk.2.2.2.1 (not_le.mpr h4)
          · exact absurd hk.2.2.2.2 (not_le.mpr h4)
        · exact ⟨hb, hk⟩
    · rw [List.mem_cons, ihh, List.mem_cons]
      push_neg at h4
      constructor
      · rintro (rfl | ⟨hb, hk⟩)
        · exact ⟨Or.inl rfl, le_of_not_lt h1, le_of_not_lt h2, le_of_not_lt h3,
            h4.1, h4.2⟩
        · exact ⟨Or.inr hb, hk⟩
      · rintro ⟨rfl | hb, hk⟩
        · exact Or.inl rfl
        · exact Or.inr ⟨hb, hk⟩

/-- C1: over radius-sorted candidate bins, the doublet builder keeps a bottom
    candidate exactly when deltaRMin and deltaRMax bound rM minus rB, the
    forward angle passes the cotThetaMax cut and the extrapolated z origin
    lies in the collision region; the top predicate is the mirror image with
    deltaR equal to rT minus rM, so every kept partner of either kind
    satisfies the deltaR, cotTheta and z-origin cuts. -/
theorem c1_doublet_cuts (cfg : SeedfinderConfig) (rM zM : ℝ)
    (binB binT : List InternalSP)
    (hB : binB.Sorted fun a b => a.radius ≤ b.radius)
    (hT : binT.Sorted fun a b => a.radius ≤ b.radius) :
    (∀ b, b ∈ bottomDoublets cfg rM zM binB ↔ b ∈ binB ∧ bottomKeep cfg rM zM b) ∧
    (∀ t, t ∈ topDoublets cfg rM zM binT ↔ t ∈ binT ∧ topKeep cfg rM zM t) :=
  ⟨fun b => mem_bottomDoublets cfg rM zM binB hB b,
   fun t => mem_topDoublets cfg rM zM binT hT t⟩

/-- Characterization of acceptance by the triplet predicate: a pair is
    recorded exactly when no guard fires, and then the recorded values are the
    signed curvature and the impact parameter. -/
theorem tripletCheck_some_iff (cfg : SeedfinderConfig) (rM covrM covzM : ℝ)
    (lb lt : LinCircle) (c i : ℝ) :
    tripletCheck cfg rM covrM covzM lb lt = some (c, i) ↔
      ¬(deltaCotThetaOf lb lt ^ 2 - error2Of covrM covzM lb lt > 0 ∧
          dOf covrM covzM lb lt > scatteringInRegion2Of cfg lb) ∧
      dUOf lb lt ≠ 0 ∧
      ¬(s2Of lb lt < bOf lb lt * bOf lb lt * cfg.minHelixDiameter2) ∧
      ¬(deltaCotThetaOf lb lt ^ 2 - error2Of covrM covzM lb lt > 0 ∧
          dOf covrM covzM lb lt >
            p2scatterOf cfg lb lt * (cfg.sigmaScattering * cfg.sigmaScattering)) ∧
      imOf rM lb lt ≤ cfg.impactMax ∧
      bOf lb lt / Real.sqrt (s2Of lb lt) = c ∧ imOf rM lb lt = i := by
  simp only [tripletCheck]
  split_ifs with h1 h2 h3 h4 h5 <;> simp_all

/-- Characterization of rejection by the triplet predicate: a pair produces no
    record exactly when one of the five guards fires. -/
theorem tripletCheck_none_iff (cfg : SeedfinderConfig) (rM covrM covzM : ℝ)
    (lb lt : LinCircle) :
    tripletCheck cfg rM covrM covzM lb lt = none ↔
      (deltaCotThetaOf lb lt ^ 2 - error2Of covrM covzM lb lt > 0 ∧
        dOf covrM covzM lb lt > scatteringInRegion2Of cfg lb) ∨
      dUOf lb lt = 0 ∨
      s2Of lb lt < bOf lb lt * bOf lb lt * cfg.minHelixDiameter2 ∨
      (deltaCotThetaOf lb lt ^ 2 - error2Of covrM covzM lb lt > 0 ∧
        dOf covrM covzM lb lt >
          p2scatterOf cfg lb lt * (cfg.sigmaScattering * cfg.sigmaScattering)) ∨
      ¬(imOf rM lb lt ≤ cfg.impactMax) := by
  simp only [tripletCheck]
  split_ifs with h1 h2 h3 h4 h5 <;> simp_all

/-- C2: every (bottom, top) pair accepted by the triplet builder is recorded
    with impact parameter Im equal to the absolute value of (A - B rM) rM,
    and satisfies both Im at most impactMax and the helix-radius floor
    S2 at least B2 times minHelixDiameter2; conversely a pair with nonzero
    dU that violates either bound is rejected and produces no seed. -/
theorem c2_impact_and_helix_cuts (cfg : SeedfinderConfig) (rM covrM covzM : ℝ)
    (lb lt : LinCircle) :
    (∀ c i, tripletCheck cfg rM covrM covzM lb lt = some (c, i) →
      i = imOf rM lb lt ∧ i ≤ cfg.impactMax ∧
      bOf lb lt * bOf lb lt * cfg.minHelixDiameter2 ≤ s2Of lb lt) ∧
    (dUOf lb lt ≠ 0 →
      (s2Of lb lt < bOf lb lt * bOf lb lt * cfg.minHelixDiameter2 ∨
        cfg.impactMax < imOf rM lb lt) →
      tripletCheck cfg rM covrM covzM lb lt = none) := by
  constructor
  · intro c i h
    rw [tripletCheck_some_iff] at h
    obtain ⟨-, -, h3, -, h5, -, hi⟩ := h
    exact ⟨hi.symm, hi ▸ h5, le_of_not_lt h3⟩
  · intro hdU hviol
    rw [tripletCheck_none_iff]
    rcases hviol with hv | hv
    · exact Or.inr (Or.inr (Or.inl hv))
    · exact Or.inr (Or.inr (Or.inr (Or.inr (not_le.mpr hv))))

/-- C3: a conformal pair with positive squared cotTheta difference beyond the
    squared error is rejected when the comparison quantity d exceeds the
    scattering bound for the region, and also when d exceeds the scattering
    bound at the measured transverse momentum; a pair whose squared cotTheta
    difference does not exceed the squared error is never rejected by either
    scattering test: it can only be rejected by the dU guard, the helix-radius
    floor or the impact-parameter cut. -/
theorem c3_scattering_cuts (cfg : SeedfinderConfig) (rM covrM covzM : ℝ)
    (lb lt : LinCircle) :
    (deltaCotThetaOf lb lt ^ 2 - error2Of covrM covzM lb lt > 0 →
      dOf covrM covzM lb lt > scatteringInRegion2Of cfg lb →
      tripletCheck cfg rM covrM covzM lb lt = none) ∧
    (deltaCotThetaOf lb lt ^ 2 - error2Of covrM covzM lb lt > 0 →
      dOf covrM covzM lb lt >
        p2scatterOf cfg lb lt * (cfg.sigmaScattering * cfg.sigmaScattering) →
      tripletCheck cfg rM covrM covzM lb lt = none) ∧
    (deltaCotThetaOf lb lt ^ 2 - error2Of covrM covzM lb lt ≤ 0 →
      (tripletCheck cfg rM covrM covzM lb lt = none ↔
        dUOf lb lt = 0 ∨
        s2Of lb lt < bOf lb lt * bOf lb lt * cfg.minHelixDiameter2 ∨
        cfg.impactMax < imOf rM lb lt)) := by
  refine ⟨?_, ?_, ?_⟩
  · intro hpos hd
    rw [tripletCheck_none_iff]
    exact Or.inl ⟨hpos, hd⟩
  · intro hpos hd
    rw [tripletCheck_none_iff]
    exact Or.inr (Or.inr (Or.inr (Or.inl ⟨hpos, hd⟩)))
  · intro hnonpos
    rw [tripletCheck_none_iff]
    constructor
    · rintro (⟨hp, -⟩ | h | h | ⟨hp, -⟩ | h)
      · exact absurd hp (not_lt.mpr hnonpos)
      · exact Or.inl h
      · exact Or.inr (Or.inl h)
      · exact absurd hp (not_lt.mpr hnonpos)
      · exact Or.inr (Or.inr (not_le.mp h))
    · rintro (h | h | h)
      · exact Or.inr (Or.inl h)
      · exact Or.inr (Or.inr (Or.inl h))
      · exact Or.inr (Or.inr (Or.inr (Or.inr (not_le.mpr h))))

/-- Radius bucket key of an internal spacepoint: its radius truncated to an
    unsigned integer, as used for the rBins index. -/
def rKey (x : InternalSP) : ℕ := Nat.floor x.radius

/-- Grid bin assigned to an internal spacepoint by the placement function. -/
def posKey (pos : ℝ → ℝ → ℕ) (x : InternalSP) : ℕ := pos x.phi x.z

/-- Reading a bin list after a set: the new value when the write is in range
    at the same index, the old value otherwise. -/
theorem getD_set_bins (l : List (List InternalSP)) (n m : ℕ) (v : List InternalSP) :
    (l.set n v).getD m [] = if n = m ∧ n < l.length then v else l.getD m [] := by
  rw [List.getD_eq_getElem?_getD, List.getD_eq_getElem?_getD, List.getElem?_set]
  by_cases h1 : n = m
  · subst h1
    by_cases h2 : n < l.length
    · simp [h2]
    · simp [h2, List.getElem?_eq_none (le_of_not_lt h2)]
  · simp [h1]

/-- Every bin of an all-empty grid reads as the empty list. -/
theorem getD_replicate_nil (n k : ℕ) :
    (List.replicate n ([] : List InternalSP)).getD k [] = [] := by
  rw [List.getD_eq_getElem?_getD, List.getElem?_replicate]
  split <;> rfl

/-- One initState iteration does not change the number of radius buckets. -/
theorem length_initStep (cfg : SeedfinderConfig) (ct : ExtSpacePoint → ℝ → ℝ → ℝ → ℝ × ℝ)
    (nR : ℕ) (acc : List (List InternalSP)) (o : Option ExtSpacePoint) :
    (initStep cfg ct nR acc o).length = acc.length := by
  cases o with
  | none => rfl
  | some sp =>
    simp only [initStep]
    split_ifs <;> simp [List.length_set]

/-- The bucketing fold does not change the number of radius buckets. -/
theorem length_foldl_initStep (cfg : SeedfinderConfig)
    (ct : ExtSpacePoint → ℝ → ℝ → ℝ → ℝ × ℝ) (nR : ℕ)
    (sps : List (Option ExtSpacePoint)) :
    ∀ acc, (sps.foldl (initStep cfg ct nR) acc).length = acc.length := by
  induction sps with
  | nil => intro acc; rfl
  | cons o rest ih =>
    intro acc
    rw [List.foldl_cons, ih, length_initStep]

/-- The bucket array built by initState has numRBins buckets. -/
theorem length_buildRBins (cfg : SeedfinderConfig)
    (ct : ExtSpacePoint → ℝ → ℝ → ℝ → ℝ × ℝ) (sps : List (Option ExtSpacePoint)) :
    (buildRBins cfg ct sps).length = numRBins cfg := by
  rw [buildRBins, length_foldl_initStep, List.length_replicate]

/-- One initState iteration preserves the bucket invariant: every occupant of
    bucket i has nonnegative radius with integer part i. -/
theorem initStep_key (cfg : SeedfinderConfig) (ct : ExtSpacePoint → ℝ → ℝ → ℝ → ℝ × ℝ)
    (nR : ℕ) (acc : List (List InternalSP)) (o : Option ExtSpacePoint)
    (hacc : ∀ i x, x ∈ acc.getD i [] → rKey x = i ∧ 0 ≤ x.radius) :
    ∀ i x, x ∈ (initStep cfg ct nR acc o).getD i [] → rKey x = i ∧ 0 ≤ x.radius := by
  cases o with
  | none => exact hacc
  | some sp =>
    simp only [initStep]
    split_ifs with h1 h2 h3
    · exact hacc
    · exact hacc
    · exact hacc
    · intro i x hx
      rw [getD_set_bins] at hx
      by_cases hc :
          Nat.floor (mkISP cfg (ct sp cfg.zAlign cfg.rAlign cfg.sigmaError) sp).radius = i ∧
          Nat.floor (mkISP cfg (ct sp cfg.zAlign cfg.rAlign cfg.sigmaError) sp).radius <
            acc.length
      · rw [if_pos hc] at hx
        rcases List.mem_append.mp hx with hx | hx
        · exact hacc _ x (hc.1 ▸ hx)
        · rcases List.mem_singleton.mp hx with rfl
          exact ⟨hc.1, Real.sqrt_nonneg _⟩
      · rw [if_neg hc] at hx
        exact hacc i x hx

/-- The bucketing fold preserves the bucket invariant. -/
theorem foldl_initStep_key (cfg : SeedfinderConfig)
    (ct : ExtSpacePoint → ℝ → ℝ → ℝ → ℝ × ℝ) (nR : ℕ)
    (sps : List (Option ExtSpacePoint)) :
    ∀ acc, (∀ i x, x ∈ acc.getD i [] → rKey x = i ∧ 0 ≤ x.radius) →
      ∀ i x, x ∈ (sps.foldl (initStep cfg ct nR) acc).getD i [] →
        rKey x = i ∧ 0 ≤ x.radius := by
  induction sps with
  | nil => intro acc hacc; exact hacc
  | cons o rest ih =>
    intro acc hacc
    rw [List.foldl_cons]
    exact ih _ (initStep_key cfg ct nR acc o hacc)

/-- Every occupant of bucket i of the built bucket array has nonnegative
    radius with integer part i. -/
theorem buildRBins_key (cfg : SeedfinderConfig)
    (ct : ExtSpacePoint → ℝ → ℝ → ℝ → ℝ × ℝ) (sps : List (Option ExtSpacePoint))
    (i : ℕ) (x : InternalSP) (hx : x ∈ (buildRBins cfg ct sps).getD i []) :
    rKey x = i ∧ 0 ≤ x.radius := by
  refine foldl_initStep_key cfg ct (numRBins cfg) sps _ ?_ i x hx
  intro i x hx
  rw [getD_replicate_nil] at hx
  cases hx

/-- One initState iteration can only grow a bucket. -/
theorem mem_getD_initStep (cfg : SeedfinderConfig)
    (ct : ExtSpacePoint → ℝ → ℝ → ℝ → ℝ × ℝ) (nR : ℕ) (acc : List (List InternalSP))
    (o : Option ExtSpacePoint) (i : ℕ) (x : InternalSP) (hx : x ∈ acc.getD i []) :
    x ∈ (initStep cfg ct nR acc o).getD i [] := by
  cases o with
  | none => exact hx
  | some sp =>
    simp only [initStep]
    split_ifs with h1 h2 h3
    · exact hx
    · exact hx
    · exact hx
    · rw [getD_set_bins]
      split_ifs with hc
      · exact List.mem_append_left _ (hc.1 ▸ hx)
      · exact hx

/-- The bucketing fold can only grow a bucket. -/
theorem mem_getD_foldl_initStep (cfg : SeedfinderConfig)
    (ct : ExtSpacePoint → ℝ → ℝ → ℝ → ℝ × ℝ) (nR : ℕ)
    (sps : List (Option ExtSpacePoint)) :
    ∀ acc i x, x ∈ acc.getD i [] →
      x ∈ (sps.foldl (initStep cfg ct nR) acc).getD i [] := by
  induction sps with
  | nil => intro acc i x hx; exact hx
  | cons o rest ih =>
    intro acc i x hx
    rw [List.foldl_cons]
    exact ih _ i x (mem_getD_initStep cfg ct nR acc o i x hx)

/-- The flush phase is the fold of the single-point flush step over the
    concatenation of the buckets in bucket order. -/
theorem flushAll_eq (pos : ℝ → ℝ → ℕ) (rBins : List (List InternalSP)) :
    ∀ grid, flushAll pos grid rBins = rBins.flatten.foldl (flushStep pos) grid := by
  induction rBins with
  | nil => intro grid; rfl
  | cons c rest ih =>
    intro grid
    rw [flushAll, List.foldl_cons, List.flatten_cons, List.foldl_append]
    exact ih (c.foldl (flushStep pos) grid)

/-- The flush step does not change the number of grid bins. -/
theorem length_flushStep (pos : ℝ → ℝ → ℕ) (g : List (List InternalSP)) (y : InternalSP) :
    (flushStep pos g y).length = g.length := by
  rw [flushStep, List.length_set]

/-- The flush fold does not change the number of grid bins. -/
theorem length_foldl_flushStep (pos : ℝ → ℝ → ℕ) (L : List InternalSP) :
    ∀ g, (L.foldl (flushStep pos) g).length = g.length := by
  induction L with
  | nil => intro g; rfl
  | cons h t ih =>
    intro g
    rw [List.foldl_cons, ih, length_flushStep]

/-- The flush step can only grow a grid bin. -/
theorem mem_getD_flushStep (pos : ℝ → ℝ → ℕ) (g : List (List InternalSP)) (y : InternalSP)
    (k : ℕ) (x : InternalSP) (hx : x ∈ g.getD k []) :
    x ∈ (flushStep pos g y).getD k [] := by
  rw [flushStep, getD_set_bins]
  split_ifs with hc
  · exact List.mem_append_left _ (hc.1 ▸ hx)
  · exact hx

/-- The flush fold can only grow a grid bin. -/
theorem mem_getD_foldl_flushStep (pos : ℝ → ℝ → ℕ) (L : List InternalSP) :
    ∀ g k x, x ∈ g.getD k [] → x ∈ (L.foldl (flushStep pos) g).getD k [] := by
  induction L with
  | nil => intro g k x hx; exact hx
  | cons h t ih =>
    intro g k x hx
    rw [List.foldl_cons]
    exact ih _ k x (mem_getD_flushStep pos g h k x hx)

/-- A point handed to the flush fold lands in the grid bin of its (phi, z)
    location, provided that bin index is in range. -/
theorem mem_foldl_flushStep_self (pos : ℝ → ℝ → ℕ) (L : List InternalSP) :
    ∀ g x, x ∈ L → posKey pos x < g.length →
      x ∈ (L.foldl (flushStep pos) g).getD (posKey pos x) [] := by
  induction L with
  | nil => intro g x hx; cases hx
  | cons h t ih =>
    intro g x hx hlen
    rw [List.foldl_cons]
    rcases List.mem_cons.mp hx with rfl | hx
    · apply mem_getD_foldl_flushStep
      rw [flushStep, getD_set_bins, if_pos ⟨rfl, hlen⟩]
      exact List.mem_append_right _ (List.mem_singleton.mpr rfl)
    · exact ih _ x hx (by rwa [length_flushStep])

/-- Every occupant of a grid bin after the flush fold was either already in
    that bin or is a flushed point whose (phi, z) location maps to that bin. -/
theorem mem_foldl_flushStep_cases (pos : ℝ → ℝ → ℕ) (L : List InternalSP) :
    ∀ g k x, x ∈ (L.foldl (flushStep pos) g).getD k [] →
      x ∈ g.getD k [] ∨ (x ∈ L ∧ posKey pos x = k) := by
  induction L with
  | nil => intro g k x hx; exact Or.inl hx
  | cons h t ih =>
    intro g k x hx
    rw [List.foldl_cons] at hx
    rcases ih _ k x hx with hx | ⟨hx, hk⟩
    · rw [flushStep, getD_set_bins] at hx
      split_ifs at hx with hc
      · rcases List.mem_append.mp hx with hx | hx
        · exact Or.inl (hc.1 ▸ hx)
        · rcases List.mem_singleton.mp hx with rfl
          exact Or.inr ⟨List.mem_cons_self _ _, hc.1⟩
      · exact Or.inl hx
    · exact Or.inr ⟨List.mem_cons_of_mem _ hx, hk⟩

/-- The flush fold preserves bucket-order sortedness: if the flushed points
    arrive in non-decreasing radius-key order, every existing occupant has key
    at most every arriving key, and every bin is already sorted, then every
    bin stays sorted by radius key. -/
theorem pairwise_foldl_flushStep (pos : ℝ → ℝ → ℕ) (L : List InternalSP) :
    ∀ g, (∀ k, ((g.getD k [] : List InternalSP)).Pairwise fun a b => rKey a ≤ rKey b) →
      (∀ k x, x ∈ g.getD k [] → ∀ y ∈ L, rKey x ≤ rKey y) →
      (L.Pairwise fun a b => rKey a ≤ rKey b) →
      ∀ k, ((L.foldl (flushStep pos) g).getD k []).Pairwise fun a b => rKey a ≤ rKey b := by
  induction L with
  | nil => intro g hg hcross hL k; exact hg k
  | cons h t ih =>
    intro g hg hcross hL k
    rw [List.foldl_cons]
    rw [List.pairwise_cons] at hL
    refine ih _ ?_ ?_ hL.2 k
    · intro k
      rw [flushStep, getD_set_bins]
      split_ifs with hc
      · rw [List.pairwise_append]
        refine ⟨hg _, List.pairwise_singleton _ _, ?_⟩
        intro x hx y hy
        rcases List.mem_singleton.mp hy with rfl
        exact hcross _ x (hc.1 ▸ hx) y (List.mem_cons_self _ _)
      · exact hg k
    · intro k x hx y hy
      rw [flushStep, getD_set_bins] at hx
      split_ifs at hx with hc
      · rcases List.mem_append.mp hx with hx | hx
        · exact hcross _ x (hc.1 ▸ hx) y (List.mem_cons_of_mem _ hy)
        · rcases List.mem_singleton.mp hx with rfl
          exact hL.1 y hy
      · exact hcross k x hx y (List.mem_cons_of_mem _ hy)

/-- The concatenation of buckets whose occupants carry the bucket index as
    radius key, taken in bucket order, is sorted by radius key. -/
theorem flatten_pairwise_keys (bs : List (List InternalSP)) :
    ∀ n : ℕ, (∀ i x, x ∈ bs.getD i [] → rKey x = n + i) →
      bs.flatten.Pairwise fun a b => rKey a ≤ rKey b := by
  induction bs with
  | nil => intro n hkey; exact List.Pairwise.nil
  | cons c rest ih =>
    intro n hkey
    rw [List.flatten_cons, List.pairwise_append]
    refine ⟨?_, ?_, ?_⟩
    · apply List.pairwise_of_forall_mem_list
      intro a ha b hb
      have ha' := hkey 0 a ha
      have hb' := hkey 0 b hb
      omega
    · refine ih (n + 1) ?_
      intro i x hx
      have := hkey (i + 1) x hx
      omega
    · intro a ha b hb
      have ha' := hkey 0 a ha
      rcases List.mem_flatten.mp hb with ⟨l, hl, hbl⟩
      rcases List.mem_iff_getElem.mp hl with ⟨j, hj, rfl⟩
      have hb' : b ∈ rest.getD j [] := by
        rwa [List.getD_eq_getElem rest [] hj]
      have := hkey (j + 1) b hb'
      omega

/-- Every bin of the built index is sorted by radius key: occupants appear in
    non-decreasing order of the integer part of their radius. -/
theorem initState_pairwise (cfg : SeedfinderConfig)
    (ct : ExtSpacePoint → ℝ → ℝ → ℝ → ℝ × ℝ) (pos : ℝ → ℝ → ℕ) (nbins : ℕ)
    (sps : List (Option ExtSpacePoint)) (k : ℕ) :
    ((initState cfg ct pos nbins sps).getD k []).Pairwise fun a b => rKey a ≤ rKey b := by
  rw [initState, flushAll_eq]
  refine pairwise_foldl_flushStep pos _ _ ?_ ?_ ?_ k
  · intro k
    rw [getD_replicate_nil]
    exact List.Pairwise.nil
  · intro k x hx
    rw [getD_replicate_nil] at hx
    cases hx
  · refine flatten_pairwise_keys _ 0 ?_
    intro i x hx
    have := (buildRBins_key cfg ct sps i x hx).1
    omega

/-- Every occupant of a bin of the built index has nonnegative radius. -/
theorem initState_radius_nonneg (cfg : SeedfinderConfig)
    (ct : ExtSpacePoint → ℝ → ℝ → ℝ → ℝ × ℝ) (pos : ℝ → ℝ → ℕ) (nbins : ℕ)
    (sps : List (Option ExtSpacePoint)) (k : ℕ) (x : InternalSP)
    (hx : x ∈ (initState cfg ct pos nbins sps).getD k []) : 0 ≤ x.radius := by
  rw [initState, flushAll_eq] at hx
  rcases mem_foldl_flushStep_cases pos _ _ k x hx with hx | ⟨hx, -⟩
  · rw [getD_replicate_nil] at hx
    cases hx
  · rcases List.mem_flatten.mp hx with ⟨l, hl, hxl⟩
    rcases List.mem_iff_getElem.mp hl with ⟨j, hj, rfl⟩
    have hx' : x ∈ (buildRBins cfg ct sps).getD j [] := by
      rwa [List.getD_eq_getElem _ [] hj]
    exact (buildRBins_key cfg ct sps j x hx').2

/-- C5: after initState completes, within every bin of the grid the radii are
    non-decreasing up to one bucket width: an occupant is smaller than any
    later occupant plus one, because buckets are flushed in increasing
    integer-radius order. -/
theorem c5_bins_radius_sorted (cfg : SeedfinderConfig)
    (ct : ExtSpacePoint → ℝ → ℝ → ℝ → ℝ × ℝ) (pos : ℝ → ℝ → ℕ) (nbins : ℕ)
    (sps : List (Option ExtSpacePoint)) (k : ℕ) (i j : ℕ) (hij : i < j)
    (hj : j < ((initState cfg ct pos nbins sps).getD k []).length) :
    (((initState cfg ct pos nbins sps).getD k []).get ⟨i, hij.trans hj⟩).radius <
      (((initState cfg ct pos nbins sps).getD k []).get ⟨j, hj⟩).radius + 1 := by
  set bin := (initState cfg ct pos nbins sps).getD k [] with hbin
  have hpw := initState_pairwise cfg ct pos nbins sps k
  rw [← hbin] at hpw
  have hkey := List.pairwise_iff_get.mp hpw ⟨i, hij.trans hj⟩ ⟨j, hj⟩ hij
  have h1 : (bin.get ⟨i, hij.trans hj⟩).radius < rKey (bin.get ⟨i, hij.trans hj⟩) + 1 :=
    Nat.lt_floor_add_one _
  have h2 : (rKey (bin.get ⟨i, hij.trans hj⟩) : ℝ) ≤ (rKey (bin.get ⟨j, hj⟩) : ℝ) :=
    Nat.cast_le.mpr hkey
  have h3 : (rKey (bin.get ⟨j, hj⟩) : ℝ) ≤ (bin.get ⟨j, hj⟩).radius := by
    apply Nat.floor_le
    apply initState_radius_nonneg cfg ct pos nbins sps k
    rw [← hbin]
    exact List.get_mem bin _ hj
  linarith

/-- The argument returned by atan2 always lies between -4 and 4, since it is
    an angle in (-pi, pi]. -/
theorem atan2_mem_pm4 (y x : ℝ) : -4 ≤ atan2 y x ∧ atan2 y x ≤ 4 := by
  have h := Complex.abs_arg_le_pi ⟨x, y⟩
  have hpi : Real.pi < 3.15 := Real.pi_lt_d2
  rw [abs_le] at h
  rw [atan2]
  constructor <;> linarith [h.1, h.2]

/-- C6 (amended): during index build, a non-null spacepoint whose z and phi
    lie in the region of interest is dropped, silently and with no effect on
    the rest of the index, exactly when the integer part of its beam-translated
    radius reaches the bucket count, which is the integer part of
    rMax plus the beam-position norm; a spacepoint below that threshold is
    placed in the grid bin of its (phi, z) location and every occupant of any
    bin belongs to exactly the bin of its own (phi, z) location. -/
theorem c6_drop_rule (cfg : SeedfinderConfig)
    (ct : ExtSpacePoint → ℝ → ℝ → ℝ → ℝ × ℝ) (pos : ℝ → ℝ → ℕ) (nbins : ℕ)
    (xs ys : List (Option ExtSpacePoint)) (sp : ExtSpacePoint)
    (hpos : ∀ p z, pos p z < nbins)
    (hz : cfg.zMin ≤ sp.z ∧ sp.z ≤ cfg.zMax)
    (hphi : cfg.phiMin ≤ atan2 sp.y sp.x ∧ atan2 sp.y sp.x ≤ cfg.phiMax) :
    (numRBins cfg ≤
        rKey (mkISP cfg (ct sp cfg.zAlign cfg.rAlign cfg.sigmaError) sp) →
      initState cfg ct pos nbins (xs ++ some sp :: ys) =
        initState cfg ct pos nbins (xs ++ ys)) ∧
    (rKey (mkISP cfg (ct sp cfg.zAlign cfg.rAlign cfg.sigmaError) sp) < numRBins cfg →
      mkISP cfg (ct sp cfg.zAlign cfg.rAlign cfg.sigmaError) sp ∈
        (initState cfg ct pos nbins (xs ++ some sp :: ys)).getD
          (posKey pos (mkISP cfg (ct sp cfg.zAlign cfg.rAlign cfg.sigmaError) sp)) [] ∧
      ∀ k x, x ∈ (initState cfg ct pos nbins (xs ++ some sp :: ys)).getD k [] →
        posKey pos x = k) := by
  have hz' : ¬(sp.z > cfg.zMax ∨ sp.z < cfg.zMin) := by
    push_neg
    exact ⟨hz.2, hz.1⟩
  have hphi' : ¬(atan2 sp.y sp.x > cfg.phiMax ∨ atan2 sp.y sp.x < cfg.phiMin) := by
    push_neg
    exact ⟨hphi.2, hphi.1⟩
  constructor
  · intro hdrop
    simp only [rKey] at hdrop
    simp only [initState]
    congr 1
    simp only [buildRBins, List.foldl_append, List.foldl_cons]
    have hstep : initStep cfg ct (numRBins cfg)
        (List.foldl (initStep cfg ct (numRBins cfg))
          (List.replicate (numRBins cfg) []) xs) (some sp) =
        List.foldl (initStep cfg ct (numRBins cfg))
          (List.replicate (numRBins cfg) []) xs := by
      simp only [initStep]
      rw [if_neg hz', if_neg hphi', if_pos hdrop]
    rw [hstep]
  · intro hkeep
    simp only [rKey] at hkeep
    have hA : (List.foldl (initStep cfg ct (numRBins cfg))
        (List.replicate (numRBins cfg) []) xs).length = numRBins cfg := by
      rw [length_foldl_initStep, List.length_replicate]
    constructor
    · have hmem1 : mkISP cfg (ct sp cfg.zAlign cfg.rAlign cfg.sigmaError) sp ∈
          (initStep cfg ct (numRBins cfg)
            (List.foldl (initStep cfg ct (numRBins cfg))
              (List.replicate (numRBins cfg) []) xs) (some sp)).getD
            (rKey (mkISP cfg (ct sp cfg.zAlign cfg.rAlign cfg.sigmaError) sp)) [] := by
        simp only [initStep, rKey]
        rw [if_neg hz', if_neg hphi', if_neg (not_le.mpr hkeep)]
        rw [getD_set_bins, if_pos ⟨rfl, by rw [hA]; exact hkeep⟩]
        exact List.mem_append_right _ (List.mem_singleton.mpr rfl)
      have hmem2 : mkISP cfg (ct sp cfg.zAlign cfg.rAlign cfg.sigmaError) sp ∈
          (buildRBins cfg ct (xs ++ some sp :: ys)).getD
            (rKey (mkISP cfg (ct sp cfg.zAlign cfg.rAlign cfg.sigmaError) sp)) [] := by
        rw [buildRBins, List.foldl_append, List.foldl_cons]
        exact mem_getD_foldl_initStep cfg ct (numRBins cfg) ys _ _ _ hmem1
      have hlen : rKey (mkISP cfg (ct sp cfg.zAlign cfg.rAlign cfg.sigmaError) sp) <
          (buildRBins cfg ct (xs ++ some sp :: ys)).length := by
        rw [length_buildRBins]
        exact hkeep
      have hflat : mkISP cfg (ct sp cfg.zAlign cfg.rAlign cfg.sigmaError) sp ∈
          (buildRBins cfg ct (xs ++ some sp :: ys)).flatten := by
        refine List.mem_flatten.mpr ⟨_, List.getElem_mem hlen, ?_⟩
        rwa [List.getD_eq_getElem _ [] hlen] at hmem2
      rw [initState, flushAll_eq]
      refine mem_foldl_flushStep_self pos _ _ _ hflat ?_
      rw [List.length_replicate]
      exact hpos _ _
    · intro k x hx
      rw [initState, flushAll_eq] at hx
      rcases mem_foldl_flushStep_cases pos _ _ k x hx with hx | ⟨-, hk⟩
      · rw [getD_replicate_nil] at hx
        cases hx
      · exact hk

/-- Concrete configuration with a non-integral rMax for the drop-rule
    counterexample. -/
def c6cfg : SeedfinderConfig :=
  { minPt := 400, cotThetaMax := 7, deltaRMin := 5, deltaRMax := 270, impactMax := 10
    sigmaScattering := 5, collisionRegionMin := -150, collisionRegionMax := 150
    phiMin := -4, phiMax := 4, zMin := -100, zMax := 100, rMax := 21 / 2, bFieldInZ := 1
    beamPosX := 0, beamPosY := 0, radLengthPerSeed := 1, zAlign := 0, rAlign := 0
    sigmaError := 0, highland := 0, maxScatteringAngle2 := 0, pTPerHelixRadius := 0
    minHelixDiameter2 := 0, pT2perRadius := 0 }

/-- Covariance tool returning zero contributions. -/
def zeroCov : ExtSpacePoint → ℝ → ℝ → ℝ → ℝ × ℝ := fun _ _ _ _ => (0, 0)

/-- Placement function sending every location to bin zero. -/
def zeroPos : ℝ → ℝ → ℕ := fun _ _ => 0

/-- Spacepoint sitting just inside rMax of c6cfg. -/
def c6sp : ExtSpacePoint := { x := 21 / 2, y := 0, z := 0 }

/-- Radius of the internal spacepoint built from c6sp. -/
theorem c6sp_radius :
    (mkISP c6cfg (zeroCov c6sp c6cfg.zAlign c6cfg.rAlign c6cfg.sigmaError) c6sp).radius
      = 21 / 2 := by
  show Real.sqrt ((c6sp.x - c6cfg.beamPosX) ^ 2 + (c6sp.y - c6cfg.beamPosY) ^ 2) = 21 / 2
  have hx : c6sp.x - c6cfg.beamPosX = 21 / 2 := by norm_num [c6sp, c6cfg]
  have hy : c6sp.y - c6cfg.beamPosY = 0 := by norm_num [c6sp, c6cfg]
  rw [hx, hy]
  rw [show ((21 / 2 : ℝ) ^ 2 + 0 ^ 2) = (21 / 2) ^ 2 by norm_num]
  exact Real.sqrt_sq (by norm_num)

/-- The bucket count of c6cfg is ten. -/
theorem c6_numRBins : numRBins c6cfg = 10 := by
  have hb : beamNorm c6cfg = 0 := by
    rw [beamNorm, show (c6cfg.beamPosX ^ 2 + c6cfg.beamPosY ^ 2 : ℝ) = 0 by norm_num [c6cfg]]
    exact Real.sqrt_zero
  rw [numRBins, hb, show (c6cfg.rMax + 0 : ℝ) = 21 / 2 by norm_num [c6cfg]]
  rw [Nat.floor_eq_iff (by norm_num)]
  norm_num

/-- C6 counterexample: c6sp is non-null, in the z and phi regions of interest,
    and the integer part of its radius is strictly below rMax plus the beam
    norm, so by the claim it should be indexed; yet initState drops it and
    every bin of the resulting index is empty.  The code compares the integer
    radius against the truncated bucket count, not against rMax plus the beam
    norm itself. -/
theorem c6_drop_rule_counterexample :
    (c6cfg.zMin ≤ c6sp.z ∧ c6sp.z ≤ c6cfg.zMax) ∧
    (c6cfg.phiMin ≤ atan2 c6sp.y c6sp.x ∧ atan2 c6sp.y c6sp.x ≤ c6cfg.phiMax) ∧
    ¬((rKey (mkISP c6cfg (zeroCov c6sp c6cfg.zAlign c6cfg.rAlign c6cfg.sigmaError) c6sp) : ℝ)
        ≥ c6cfg.rMax + beamNorm c6cfg) ∧
    initState c6cfg zeroCov zeroPos 1 [some c6sp] = [[]] := by
  have hb : beamNorm c6cfg = 0 := by
    rw [beamNorm, show (c6cfg.beamPosX ^ 2 + c6cfg.beamPosY ^ 2 : ℝ) = 0 by norm_num [c6cfg]]
    exact Real.sqrt_zero
  have hfloor : rKey (mkISP c6cfg (zeroCov c6sp c6cfg.zAlign c6cfg.rAlign c6cfg.sigmaError) c6sp)
      = 10 := by
    rw [rKey, c6sp_radius, Nat.floor_eq_iff (by norm_num)]
    norm_num
  refine ⟨⟨by norm_num [c6sp, c6cfg], by norm_num [c6sp, c6cfg]⟩, ?_, ?_, ?_⟩
  · have h := atan2_mem_pm4 c6sp.y c6sp.x
    exact ⟨by rw [show c6cfg.phiMin = -4 from rfl]; exact h.1,
           by rw [show c6cfg.phiMax = 4 from rfl]; exact h.2⟩
  · rw [hfloor, hb]
    norm_num [c6cfg]
  · have hz' : ¬(c6sp.z > c6cfg.zMax ∨ c6sp.z < c6cfg.zMin) := by
      push_neg
      norm_num [c6sp, c6cfg]
    have hphi' : ¬(atan2 c6sp.y c6sp.x > c6cfg.phiMax ∨ atan2 c6sp.y c6sp.x < c6cfg.phiMin) := by
      push_neg
      have h := atan2_mem_pm4 c6sp.y c6sp.x
      exact ⟨by rw [show c6cfg.phiMax = 4 from rfl]; exact h.2,
             by rw [show c6cfg.phiMin = -4 from rfl]; exact h.1⟩
    have hstep : buildRBins c6cfg zeroCov [some c6sp] =
        List.replicate (numRBins c6cfg) [] := by
      rw [buildRBins, List.foldl_cons, List.foldl_nil]
      simp only [initStep]
      rw [if_neg hz', if_neg hphi', if_pos (by rw [c6_numRBins]; rw [rKey] at hfloor; omega)]
    rw [initState, hstep, flushAll_eq, c6_numRBins]
    rfl

/-- Concrete configuration for the doublet and triplet witnesses. -/
def cwCfg : SeedfinderConfig :=
  { minPt := 400, cotThetaMax := 7, deltaRMin := 5, deltaRMax := 270, impactMax := 10
    sigmaScattering := 1, collisionRegionMin := -150, collisionRegionMax := 150
    phiMin := -4, phiMax := 4, zMin := -100, zMax := 100, rMax := 160, bFieldInZ := 1
    beamPosX := 0, beamPosY := 0, radLengthPerSeed := 1, zAlign := 0, rAlign := 0
    sigmaError := 0, highland := 0, maxScatteringAngle2 := 1, pTPerHelixRadius := 0
    minHelixDiameter2 := 1, pT2perRadius := 1 }

/-- Conformal record with unit reciprocal distance and all else zero. -/
def lcA : LinCircle := { Zo := 0, cotTheta := 0, iDeltaR := 1, Er := 0, U := 0, V := 0 }

/-- Conformal record like lcA but with unit U coordinate. -/
def lcB : LinCircle := { Zo := 0, cotTheta := 0, iDeltaR := 1, Er := 0, U := 1, V := 0 }

/-- Conformal record with unit U and a large V coordinate. -/
def lcC : LinCircle := { Zo := 0, cotTheta := 0, iDeltaR := 1, Er := 0, U := 1, V := 100 }

/-- Conformal record with a large cotTheta. -/
def lcD : LinCircle := { Zo := 0, cotTheta := 10, iDeltaR := 1, Er := 0, U := 1, V := 0 }

/-- Conformal record with a small nonzero cotTheta. -/
def lcE : LinCircle := { Zo := 0, cotTheta := 1 / 2, iDeltaR := 1, Er := 0, U := 1, V := 0 }

/-- Witness for C2: the pair (lcA, lcB) is accepted, with impact parameter
    zero and the helix floor satisfied, and the pair (lcA, lcC), whose impact
    parameter is one hundred, is rejected. -/
theorem c2_witness :
    ((0 : ℝ) = imOf 1 lcA lcB ∧ (0 : ℝ) ≤ cwCfg.impactMax ∧
      bOf lcA lcB * bOf lcA lcB * cwCfg.minHelixDiameter2 ≤ s2Of lcA lcB) ∧
    tripletCheck cwCfg 1 0 0 lcA lcC = none := by
  constructor
  · refine (c2_impact_and_helix_cuts cwCfg 1 0 0 lcA lcB).1 0 0 ?_
    rw [tripletCheck_some_iff]
    refine ⟨?_, ?_, ?_, ?_, ?_, ?_, ?_⟩
    · rintro ⟨h, -⟩
      norm_num [deltaCotThetaOf, error2Of, lcA, lcB] at h
    · norm_num [dUOf, lcA, lcB]
    · norm_num [s2Of, bOf, aOf, dUOf, lcA, lcB, cwCfg]
    · rintro ⟨h, -⟩
      norm_num [deltaCotThetaOf, error2Of, lcA, lcB] at h
    · norm_num [imOf, aOf, bOf, dUOf, lcA, lcB, cwCfg]
    · norm_num [bOf, aOf, dUOf, lcA, lcB]
    · norm_num [imOf, aOf, bOf, dUOf, lcA, lcB]
  · refine (c2_impact_and_helix_cuts cwCfg 1 0 0 lcA lcC).2 ?_ (Or.inr ?_)
    · norm_num [dUOf, lcA, lcC]
    · norm_num [imOf, aOf, bOf, dUOf, lcA, lcC, cwCfg]

/-- Witness for C3: the pair (lcA, lcD) is rejected by the scattering-region
    test, the pair (lcA, lcE) is rejected by the measured-pT scattering test,
    and for the pair (lcA, lcB), whose cotTheta difference vanishes, rejection
    is equivalent to one of the non-scattering guards firing. -/
theorem c3_witness :
    tripletCheck cwCfg 1 0 0 lcA lcD = none ∧
    tripletCheck cwCfg 1 0 0 lcA lcE = none ∧
    (tripletCheck cwCfg 1 0 0 lcA lcB = none ↔
      dUOf lcA lcB = 0 ∨
      s2Of lcA lcB < bOf lcA lcB * bOf lcA lcB * cwCfg.minHelixDiameter2 ∨
      cwCfg.impactMax < imOf 1 lcA lcB) := by
  refine ⟨?_, ?_, ?_⟩
  · refine (c3_scattering_cuts cwCfg 1 0 0 lcA lcD).1 ?_ ?_
    · norm_num [deltaCotThetaOf, error2Of, lcA, lcD]
    · norm_num [dOf, deltaCotThetaOf, error2Of, scatteringInRegion2Of, iSinTheta2Of,
        lcA, lcD, cwCfg, Real.sqrt_zero]
  · refine (c3_scattering_cuts cwCfg 1 0 0 lcA lcE).2.1 ?_ ?_
    · norm_num [deltaCotThetaOf, error2Of, lcA, lcE]
    · norm_num [dOf, deltaCotThetaOf, error2Of, p2scatterOf, iSinTheta2Of, bOf, aOf,
        dUOf, s2Of, lcA, lcE, cwCfg, Real.sqrt_zero]
  · refine (c3_scattering_cuts cwCfg 1 0 0 lcA lcB).2.2 ?_
    norm_num [deltaCotThetaOf, error2Of, lcA, lcB]

/-- Witness for C8: a pair of conformal records with equal U is rejected. -/
theorem c8_dU_zero_guard_witness : tripletCheck cwCfg 1 0 0 lcA lcA = none :=
  c8_dU_zero_guard cwCfg 1 0 0 lcA lcA (by norm_num [dUOf, lcA])

/-- Bottom spacepoint at radius twenty for the doublet witness. -/
def c1b1 : InternalSP := { x := 20, y := 0, z := 0, radius := 20, phi := 0, covr := 0, covz := 0 }

/-- Bottom spacepoint at radius forty for the doublet witness. -/
def c1b2 : InternalSP := { x := 40, y := 0, z := 0, radius := 40, phi := 0, covr := 0, covz := 0 }

/-- Top spacepoint at radius ninety for the doublet witness. -/
def c1t1 : InternalSP := { x := 90, y := 0, z := 0, radius := 90, phi := 0, covr := 0, covz := 0 }

/-- Middle spacepoint at radius fifty for the transform witness. -/
def c1mid : InternalSP := { x := 50, y := 0, z := 0, radius := 50, phi := 0, covr := 0, covz := 0 }

/-- Witness for C1 on concrete radius-sorted bins around a middle point at
    radius fifty. -/
theorem c1_witness :
    (∀ b, b ∈ bottomDoublets cwCfg 50 0 [c1b1, c1b2] ↔
      b ∈ [c1b1, c1b2] ∧ bottomKeep cwCfg 50 0 b) ∧
    (∀ t, t ∈ topDoublets cwCfg 50 0 [c1t1] ↔ t ∈ [c1t1] ∧ topKeep cwCfg 50 0 t) :=
  c1_doublet_cuts cwCfg 50 0 [c1b1, c1b2] [c1t1]
    (by norm_num [List.sorted_cons, c1b1, c1b2])
    (by simp [List.sorted_singleton])

/-- Witness for C4 at a concrete middle point of positive radius. -/
theorem c4_witness :
    transformCoordinates c1mid true [c1b1] = [c1b1].map (specLinCircle c1mid true) :=
  c4_transform_conformal c1mid true [c1b1] (by norm_num [c1mid])

/-- Concrete configuration for the index-sortedness witness. -/
def c5cfg : SeedfinderConfig :=
  { minPt := 400, cotThetaMax := 7, deltaRMin := 5, deltaRMax := 270, impactMax := 10
    sigmaScattering := 5, collisionRegionMin := -150, collisionRegionMax := 150
    phiMin := -4, phiMax := 4, zMin := -100, zMax := 100, rMax := 2, bFieldInZ := 1
    beamPosX := 0, beamPosY := 0, radLengthPerSeed := 1, zAlign := 0, rAlign := 0
    sigmaError := 0, highland := 0, maxScatteringAngle2 := 0, pTPerHelixRadius := 0
    minHelixDiameter2 := 0, pT2perRadius := 0 }

/-- First spacepoint of the index witness, at unit radius. -/
def c5a : ExtSpacePoint := { x := 0, y := 1, z := 0 }

/-- Second spacepoint of the index witness, also at unit radius. -/
def c5b : ExtSpacePoint := { x := 1, y := 0, z := 5 }

/-- Internal spacepoint built from c5a. -/
def c5ispA : InternalSP := mkISP c5cfg (zeroCov c5a c5cfg.zAlign c5cfg.rAlign c5cfg.sigmaError) c5a

/-- Internal spacepoint built from c5b. -/
def c5ispB : InternalSP := mkISP c5cfg (zeroCov c5b c5cfg.zAlign c5cfg.rAlign c5cfg.sigmaError) c5b

/-- The bucket count of c5cfg is two. -/
theorem c5_numRBins : numRBins c5cfg = 2 := by
  have hb : beamNorm c5cfg = 0 := by
    rw [beamNorm, show (c5cfg.beamPosX ^ 2 + c5cfg.beamPosY ^ 2 : ℝ) = 0 by norm_num [c5cfg]]
    exact Real.sqrt_zero
  rw [numRBins, hb, show (c5cfg.rMax + 0 : ℝ) = 2 by norm_num [c5cfg]]
  rw [Nat.floor_eq_iff (by norm_num)]
  norm_num

/-- The radius bucket of c5ispA is bucket one. -/
theorem c5ispA_key : Nat.floor c5ispA.radius = 1 := by
  have hr : c5ispA.radius = 1 := by
    show Real.sqrt ((c5a.x - c5cfg.beamPosX) ^ 2 + (c5a.y - c5cfg.beamPosY) ^ 2) = 1
    rw [show ((c5a.x - c5cfg.beamPosX) ^ 2 + (c5a.y - c5cfg.beamPosY) ^ 2 : ℝ) = 1
      by norm_num [c5a, c5cfg]]
    exact Real.sqrt_one
  rw [hr, Nat.floor_one]

/-- The radius bucket of c5ispB is bucket one. -/
theorem c5ispB_key : Nat.floor c5ispB.radius = 1 := by
  have hr : c5ispB.radius = 1 := by
    show Real.sqrt ((c5b.x - c5cfg.beamPosX) ^ 2 + (c5b.y - c5cfg.beamPosY) ^ 2) = 1
    rw [show ((c5b.x - c5cfg.beamPosX) ^ 2 + (c5b.y - c5cfg.beamPosY) ^ 2 : ℝ) = 1
      by norm_num [c5b, c5cfg]]
    exact Real.sqrt_one
  rw [hr, Nat.floor_one]

/-- Bucketing c5a into the empty bucket array fills bucket one. -/
theorem c5_stepA :
    initStep c5cfg zeroCov 2 (List.replicate 2 []) (some c5a) = [[], [c5ispA]] := by
  simp only [initStep]
  rw [if_neg (by push_neg; norm_num [c5a, c5cfg])]
  rw [if_neg (by
    push_neg
    have h := atan2_mem_pm4 c5a.y c5a.x
    exact ⟨by rw [show c5cfg.phiMax = 4 from rfl]; exact h.2,
           by rw [show c5cfg.phiMin = -4 from rfl]; exact h.1⟩)]
  rw [show Nat.floor (mkISP c5cfg (zeroCov c5a c5cfg.zAlign c5cfg.rAlign c5cfg.sigmaError)
      c5a).radius = 1 from c5ispA_key]
  rw [if_neg (by norm_num)]
  rfl

/-- Bucketing c5b next appends it to bucket one. -/
theorem c5_stepB :
    initStep c5cfg zeroCov 2 [[], [c5ispA]] (some c5b) = [[], [c5ispA, c5ispB]] := by
  simp only [initStep]
  rw [if_neg (by push_neg; norm_num [c5b, c5cfg])]
  rw [if_neg (by
    push_neg
    have h := atan2_mem_pm4 c5b.y c5b.x
    exact ⟨by rw [show c5cfg.phiMax = 4 from rfl]; exact h.2,
           by rw [show c5cfg.phiMin = -4 from rfl]; exact h.1⟩)]
  rw [show Nat.floor (mkISP c5cfg (zeroCov c5b c5cfg.zAlign c5cfg.rAlign c5cfg.sigmaError)
      c5b).radius = 1 from c5ispB_key]
  rw [if_neg (by norm_num)]
  rfl

/-- Bin zero of the index built from c5a and c5b holds both points in order. -/
theorem c5_bin_eval :
    (initState c5cfg zeroCov zeroPos 1 [some c5a, some c5b]).getD 0 [] =
      [c5ispA, c5ispB] := by
  have hbuild : buildRBins c5cfg zeroCov [some c5a, some c5b] = [[], [c5ispA, c5ispB]] := by
    rw [buildRBins, c5_numRBins, List.foldl_cons, c5_stepA, List.foldl_cons, List.foldl_nil]
    exact c5_stepB
  rw [initState, hbuild]
  rfl

/-- That bin has two occupants. -/
theorem c5_bin_len :
    1 < ((initState c5cfg zeroCov zeroPos 1 [some c5a, some c5b]).getD 0 []).length := by
  rw [c5_bin_eval]
  norm_num

/-- Witness for C5 on the concrete two-point index. -/
theorem c5_witness :
    (((initState c5cfg zeroCov zeroPos 1 [some c5a, some c5b]).getD 0 []).get
        ⟨0, Nat.lt_trans Nat.zero_lt_one c5_bin_len⟩).radius <
      (((initState c5cfg zeroCov zeroPos 1 [some c5a, some c5b]).getD 0 []).get
        ⟨1, c5_bin_len⟩).radius + 1 :=
  c5_bins_radius_sorted c5cfg zeroCov zeroPos 1 [some c5a, some c5b] 0 0 1
    Nat.zero_lt_one c5_bin_len

/-- Witness for C6 on the concrete configuration and spacepoint of the
    counterexample. -/
theorem c6_drop_rule_witness :
    (numRBins c6cfg ≤
        rKey (mkISP c6cfg (zeroCov c6sp c6cfg.zAlign c6cfg.rAlign c6cfg.sigmaError) c6sp) →
      initState c6cfg zeroCov zeroPos 1 [some c6sp] = initState c6cfg zeroCov zeroPos 1 []) ∧
    (rKey (mkISP c6cfg (zeroCov c6sp c6cfg.zAlign c6cfg.rAlign c6cfg.sigmaError) c6sp) <
        numRBins c6cfg →
      mkISP c6cfg (zeroCov c6sp c6cfg.zAlign c6cfg.rAlign c6cfg.sigmaError) c6sp ∈
        (initState c6cfg zeroCov zeroPos 1 [some c6sp]).getD
          (posKey zeroPos (mkISP c6cfg (zeroCov c6sp c6cfg.zAlign c6cfg.rAlign
            c6cfg.sigmaError) c6sp)) [] ∧
      ∀ k x, x ∈ (initState c6cfg zeroCov zeroPos 1 [some c6sp]).getD k [] →
        posKey zeroPos x = k) :=
  c6_drop_rule c6cfg zeroCov zeroPos 1 [] [] c6sp (fun _ _ => Nat.zero_lt_one)
    (by norm_num [c6sp, c6cfg])
    (by
      have h := atan2_mem_pm4 c6sp.y c6sp.x
      exact ⟨by rw [show c6cfg.phiMin = -4 from rfl]; exact h.1,
             by rw [show c6cfg.phiMax = 4 from rfl]; exact h.2⟩)
